import Mathlib

/-!
Verification of the record store in `src/database.py` (the `Database` class):
a dual-mode (Supabase remote / local CSV fallback) record store.

The local-file (CSV) mode is embedded shallowly:

* a record is a Python dict read from `csv.DictReader`: an ordered
  association list of string keys to string values with no duplicate keys;
* a table file is either absent, present with a list of records, or
  unreadable ("corrupt", e.g. invalid UTF-8) — reading a corrupt file raises,
  which the operations catch;
* `_write_csv` is modelled with the semantics of `csv.DictWriter` with
  `fieldnames = datos[0].keys()`: it does nothing when the record list is
  empty, otherwise it writes the header and each record projected onto the
  header fields (missing fields become `""` via `restval`); a record with a
  field outside the header raises `ValueError` (`extrasaction` defaults to
  `'raise'`), leaving the file truncated to the header plus the rows written
  before the failing one;
* fallible steps are `Except` computations; every public operation wraps its
  core in the `try/except` of the source, turning any error into the neutral
  result (`[]` for `select`, `false` for `insert`/`update`/`delete`).

Exceptions raised by the environment (file unreadable, `os.makedirs`
failing, the remote probe failing) are modelled as explicit fault inputs.
-/

set_option autoImplicit false

namespace Colmago

/-- A record: a Python dict as produced by `csv.DictReader` or built by the
caller — an insertion-ordered association list from field name to value. -/
abbrev Record := List (String × String)

/-- `r.get(k)` on a Python dict: the value at the first (only) occurrence of
the key, if present. -/
def dget (r : Record) (k : String) : Option String :=
  r.lookup k

/-- `r[k] = v` on a Python dict: replace the value at `k` in place if the key
is present, otherwise append the pair at the end (dict insertion order). -/
def dictSet : Record → String → String → Record
  | [], k, v => [(k, v)]
  | (k', v') :: rest, k, v =>
      if k' = k then (k, v) :: rest else (k', v') :: dictSet rest k v

/-- `r.update(d)` on Python dicts: fold `dictSet` over the entries of `d` in
order — present keys are overwritten in place, new keys appended. -/
def dictMerge (r d : Record) : Record :=
  d.foldl (fun acc kv => dictSet acc kv.1 kv.2) r

/-- The keys of a record, in insertion order. -/
def keysOf (r : Record) : List String :=
  r.map Prod.fst

/-- State of one table's backing CSV file: missing (reads as the empty
table), present with its records, or unreadable so that opening it raises. -/
inductive FileState where
  | absent : FileState
  | present : List Record → FileState
  | corrupt : FileState
  deriving DecidableEq

/-- `Database._read_csv`: a missing file is an empty table; an unreadable
file raises (modelled as an error). -/
def readCsv : FileState → Except Unit (List Record)
  | .absent => .ok []
  | .present rows => .ok rows
  | .corrupt => .error ()

/-- Projection of one record onto the header, as `csv.DictWriter` writes it
and `csv.DictReader` reads it back: one value per header field, missing
fields becoming the empty string (`restval`). -/
def projectRecord (hdr : List String) (r : Record) : Record :=
  hdr.map (fun k => (k, (dget r k).getD ""))

/-- Whether `DictWriter` accepts a record: every field is in the header
(otherwise `extrasaction='raise'` raises `ValueError`). -/
def rowOk (hdr : List String) (r : Record) : Bool :=
  r.all (fun kv => hdr.contains kv.1)

/-- `Database._write_csv`: a no-op when `datos` is empty (the file is left as
it was, so an emptied table is never persisted); otherwise the header is the
first record's keys and each record is written projected onto it.  A record
with a field outside the header raises mid-write, leaving the file truncated
to the rows already written (the error carries that partial file state). -/
def writeCsv (fs : FileState) (datos : List Record) : Except FileState FileState :=
  match datos with
  | [] => .ok fs
  | d0 :: _ =>
      let hdr := keysOf d0
      if datos.all (rowOk hdr) then
        .ok (.present (datos.map (projectRecord hdr)))
      else
        .error (.present ((datos.takeWhile (rowOk hdr)).map (projectRecord hdr)))

/-- One conjunct of the filter in `Database.select`:
`all(d.get(k) == v for k, v in filtros.items())`. -/
def matchesFilters (f : Record) (d : Record) : Bool :=
  f.all (fun kv => dget d kv.1 == some kv.2)

/-- Core of `Database.select` in CSV mode (the body of the `try`): read the
table, and when `filtros` is truthy (not `None` and not the empty dict) keep
the records every filter entry matches. -/
def selectCore (fs : FileState) (filtros : Option Record) : Except Unit (List Record) := do
  let datos ← readCsv fs
  match filtros with
  | some f => if f.isEmpty then pure datos else pure (datos.filter (matchesFilters f))
  | none => pure datos

/-- `Database.select` in CSV mode: the `except` clause returns `[]` on any
error. -/
def selectOp (fs : FileState) (filtros : Option Record) : List Record :=
  match selectCore fs filtros with
  | .ok l => l
  | .error _ => []

/-- Python `int(s)` on the strings this store meets: optional surrounding
whitespace, an optional sign, then at least one decimal digit.  `none` is a
raised `ValueError`. -/
def parseDigits : List Char → Option Nat
  | [] => none
  | cs =>
      cs.foldl
        (fun acc c =>
          match acc with
          | some n => if c.isDigit then some (n * 10 + (c.toNat - 48)) else none
          | none => none)
        (some 0)

/-- Strip leading and trailing whitespace, as `int()` does. -/
def pyStrip (cs : List Char) : List Char :=
  ((cs.dropWhile Char.isWhitespace).reverse.dropWhile Char.isWhitespace).reverse

/-- Python `int(s)` (ValueError as `none`). -/
def pyInt (s : String) : Option Int :=
  match pyStrip s.toList with
  | '-' :: rest => (parseDigits rest).map (fun n => -(n : Int))
  | '+' :: rest => (parseDigits rest).map (fun n => (n : Int))
  | cs => (parseDigits cs).map (fun n => (n : Int))

/-- `int(r.get('id', 0))` in `Database.insert`: a record with no `id` field
contributes `0`; otherwise its `id` string is parsed. -/
def idVal (r : Record) : Option Int :=
  match dget r "id" with
  | none => some 0
  | some s => pyInt s

/-- Python `max(xs, default=0)`. -/
def maxInt : List Int → Int
  | [] => 0
  | x :: xs => xs.foldl max x

/-- The list comprehension `[int(r.get('id', 0)) for r in registros]`: stops
with a `ValueError` at the first record whose id fails to parse. -/
def mapOpt {α β : Type} (f : α → Option β) : List α → Option (List β)
  | [] => some []
  | x :: xs =>
      match f x, mapOpt f xs with
      | some y, some ys => some (y :: ys)
      | _, _ => none

/-- Core of `Database.insert` in CSV mode: read the table; if the payload has
no `id` key, parse every existing id (a `ValueError` aborts before any
write), assign `str(max + 1)`, append and rewrite. -/
def insertCore (fs : FileState) (datos : Record) : Except FileState FileState := do
  let registros ← (readCsv fs).mapError (fun _ => fs)
  match dget datos "id" with
  | some _ => writeCsv fs (registros ++ [datos])
  | none =>
      match mapOpt idVal registros with
      | none => .error fs
      | some ids =>
          writeCsv fs (registros ++ [dictSet datos "id" (toString (maxInt ids + 1))])

/-- `Database.insert` in CSV mode: `True` on success, `False` on any caught
exception, together with the resulting file state. -/
def insertOp (fs : FileState) (datos : Record) : Bool × FileState :=
  match insertCore fs datos with
  | .ok fs' => (true, fs')
  | .error fs' => (false, fs')

/-- The scan-and-merge loop of `Database.update`: on the first record whose
`id` equals the target string, merge the payload in and stop. -/
def updateOneMatch : List Record → String → Record → List Record
  | [], _, _ => []
  | r :: rest, target, datos =>
      if dget r "id" = some target then dictMerge r datos :: rest
      else r :: updateOneMatch rest target datos

/-- Core of `Database.update` in CSV mode: read, merge into the first record
matching `str(id_registro)` (if any), rewrite. -/
def updateCore (fs : FileState) (idRegistro : Int) (datos : Record) :
    Except FileState FileState := do
  let registros ← (readCsv fs).mapError (fun _ => fs)
  writeCsv fs (updateOneMatch registros (toString idRegistro) datos)

/-- `Database.update` in CSV mode. -/
def updateOp (fs : FileState) (idRegistro : Int) (datos : Record) : Bool × FileState :=
  match updateCore fs idRegistro datos with
  | .ok fs' => (true, fs')
  | .error fs' => (false, fs')

/-- Core of `Database.delete` in CSV mode: read, drop every record whose `id`
equals `str(id_registro)`, rewrite.  (When every record is dropped,
`_write_csv` receives an empty list and leaves the file untouched.) -/
def deleteCore (fs : FileState) (idRegistro : Int) : Except FileState FileState := do
  let registros ← (readCsv fs).mapError (fun _ => fs)
  writeCsv fs (registros.filter (fun r => dget r "id" != some (toString idRegistro)))

/-- `Database.delete` in CSV mode. -/
def deleteOp (fs : FileState) (idRegistro : Int) : Bool × FileState :=
  match deleteCore fs idRegistro with
  | .ok fs' => (true, fs')
  | .error fs' => (false, fs')

/-- The `Database` object: the two mode flags set by `_connect`, and the
backing file of each table (the `data_backup` directory).  The Supabase
client handle is not modelled; remote calls are oracles. -/
structure Database where
  connected : Bool
  csvMode : Bool
  files : String → FileState

/-- `Database._connect`: the flags it leaves behind.  `credsOk` is the
truthiness of `config.SUPABASE_URL and config.SUPABASE_KEY`; `probeOk` is
whether `create_client` plus the one-row probe query succeeded.  Any failure
is caught inside `_connect` itself and switches the store to CSV mode. -/
def connectFlags (credsOk probeOk : Bool) : Bool × Bool :=
  if credsOk && probeOk then (true, false) else (false, true)

/-- The `Database` produced by a completed `__init__` over existing table
files `files`. -/
def mkDatabase (files : String → FileState) (credsOk probeOk : Bool) : Database :=
  { connected := (connectFlags credsOk probeOk).1
    csvMode := (connectFlags credsOk probeOk).2
    files := files }

/-- `Database.__init__`: before `_connect` it runs
`if not os.path.exists(self.csv_dir): os.makedirs(self.csv_dir)` OUTSIDE any
`try`, so a failing `os.makedirs` (modelled by `dirExists = false` and
`mkdirOk = false`) propagates out of the constructor. -/
def initDb (files : String → FileState) (dirExists mkdirOk credsOk probeOk : Bool) :
    Except Unit Database :=
  if dirExists || mkdirOk then .ok (mkDatabase files credsOk probeOk) else .error ()

/-- Replace one table's backing file. -/
def Database.setTable (db : Database) (tabla : String) (fs : FileState) : Database :=
  { db with files := fun t => if t = tabla then fs else db.files t }

/-- `Database.select` on the object: CSV mode uses the file operation; in
remote mode the backend's reply (or its failure) is an oracle. -/
def Database.selectDb (db : Database) (remoteOk : Bool) (remoteData : List Record)
    (tabla : String) (filtros : Option Record) : List Record :=
  if db.csvMode then selectOp (db.files tabla) filtros
  else if remoteOk then remoteData else []

/-- `Database.insert` on the object. -/
def Database.insertDb (db : Database) (remoteOk : Bool) (tabla : String)
    (datos : Record) : Bool × Database :=
  if db.csvMode then
    let r := insertOp (db.files tabla) datos
    (r.1, db.setTable tabla r.2)
  else (remoteOk, db)

/-- `Database.update` on the object. -/
def Database.updateDb (db : Database) (remoteOk : Bool) (tabla : String)
    (idRegistro : Int) (datos : Record) : Bool × Database :=
  if db.csvMode then
    let r := updateOp (db.files tabla) idRegistro datos
    (r.1, db.setTable tabla r.2)
  else (remoteOk, db)

/-- `Database.delete` on the object. -/
def Database.deleteDb (db : Database) (remoteOk : Bool) (tabla : String)
    (idRegistro : Int) : Bool × Database :=
  if db.csvMode then
    let r := deleteOp (db.files tabla) idRegistro
    (r.1, db.setTable tabla r.2)
  else (remoteOk, db)

/-- `Database.get_connection_status`. -/
def Database.getConnectionStatus (db : Database) : String :=
  if db.csvMode then "CSV Local"
  else if db.connected then "Supabase"
  else "Desconectado"

/-- Database objects reachable in a process: produced by a successful
`__init__`, then transformed only by the mutating operations (`select` and
`get_connection_status` do not change the object). -/
inductive Reachable : Database → Prop where
  | init (files : String → FileState) (dirExists mkdirOk credsOk probeOk : Bool)
      (db : Database) (h : initDb files dirExists mkdirOk credsOk probeOk = .ok db) :
      Reachable db
  | insertStep (db : Database) (remoteOk : Bool) (tabla : String) (datos : Record)
      (h : Reachable db) : Reachable (db.insertDb remoteOk tabla datos).2
  | updateStep (db : Database) (remoteOk : Bool) (tabla : String) (idRegistro : Int)
      (datos : Record) (h : Reachable db) :
      Reachable (db.updateDb remoteOk tabla idRegistro datos).2
  | deleteStep (db : Database) (remoteOk : Bool) (tabla : String) (idRegistro : Int)
      (h : Reachable db) : Reachable (db.deleteDb remoteOk tabla idRegistro).2

/-- A list of records as read back from one CSV file: every record has
exactly the header's fields, and the header has no duplicate field names.
Every file `_write_csv` produces satisfies this, so these are exactly the
representable non-empty table states. -/
def UniformH (hdr : List String) (rows : List Record) : Prop :=
  hdr.Nodup ∧ ∀ r ∈ rows, keysOf r = hdr

instance (hdr : List String) (rows : List Record) : Decidable (UniformH hdr rows) := by
  unfold UniformH; infer_instance

theorem dget_cons_self (k v : String) (rest : Record) :
    dget ((k, v) :: rest) k = some v := by
  simp [dget, List.lookup]

theorem dget_cons_ne (k k' v' : String) (rest : Record) (h : k ≠ k') :
    dget ((k', v') :: rest) k = dget rest k := by
  have hb : (k == k') = false := beq_false_of_ne h
  simp [dget, List.lookup, hb]

theorem keysOf_cons (k v : String) (rest : Record) :
    keysOf ((k, v) :: rest) = k :: keysOf rest := rfl

theorem projectRecord_self (r : Record) (hnd : (keysOf r).Nodup) :
    projectRecord (keysOf r) r = r := by
  induction r with
  | nil => rfl
  | cons kv rest ih =>
      obtain ⟨k0, v0⟩ := kv
      rw [keysOf_cons] at hnd ⊢
      have hnot : k0 ∉ keysOf rest := (List.nodup_cons.mp hnd).1
      have hnd' : (keysOf rest).Nodup := (List.nodup_cons.mp hnd).2
      have htail : ∀ k ∈ keysOf rest,
          (k, (dget ((k0, v0) :: rest) k).getD "") = (k, (dget rest k).getD "") := by
        intro k hk
        have hne : k ≠ k0 := fun h => hnot (h ▸ hk)
        rw [dget_cons_ne _ _ _ _ hne]
      calc projectRecord (k0 :: keysOf rest) ((k0, v0) :: rest)
          = (k0, v0) ::
              (keysOf rest).map (fun k => (k, (dget ((k0, v0) :: rest) k).getD "")) := by
            simp [projectRecord, dget_cons_self]
        _ = (k0, v0) :: (keysOf rest).map (fun k => (k, (dget rest k).getD "")) := by
            rw [List.map_congr_left htail]
        _ = (k0, v0) :: rest := by
            rw [show (keysOf rest).map (fun k => (k, (dget rest k).getD ""))
                  = projectRecord (keysOf rest) rest from rfl, ih hnd']

theorem rowOk_of_keys (hdr : List String) (r : Record) (h : ∀ k ∈ keysOf r, k ∈ hdr) :
    rowOk hdr r = true := by
  rw [rowOk, List.all_eq_true]
  intro kv hkv
  exact List.elem_eq_true_of_mem (h kv.1 (List.mem_map_of_mem Prod.fst hkv))

theorem writeCsv_id (fs : FileState) (hdr : List String) (rows : List Record)
    (hu : UniformH hdr rows) (hne : rows ≠ []) :
    writeCsv fs rows = .ok (.present rows) := by
  obtain ⟨d0, rest, rfl⟩ : ∃ d0 rest, rows = d0 :: rest := by
    cases rows with
    | nil => exact absurd rfl hne
    | cons d0 rest => exact ⟨d0, rest, rfl⟩
  have hd0 : keysOf d0 = hdr := hu.2 d0 (by simp)
  have hall : (d0 :: rest).all (rowOk (keysOf d0)) = true := by
    rw [List.all_eq_true]
    intro r hr
    refine rowOk_of_keys _ _ (fun k hk => ?_)
    rw [hu.2 r hr] at hk
    rw [hd0]
    exact hk
  have hmap : (d0 :: rest).map (projectRecord (keysOf d0)) = d0 :: rest := by
    have hid : ∀ r ∈ d0 :: rest, projectRecord (keysOf d0) r = id r := by
      intro r hr
      have hkr : keysOf r = keysOf d0 := by rw [hu.2 r hr, hd0]
      rw [show projectRecord (keysOf d0) r = projectRecord (keysOf r) r from by rw [hkr]]
      exact projectRecord_self r (by rw [hkr, hd0]; exact hu.1)
    rw [List.map_congr_left hid, List.map_id]
  simp [writeCsv, hall, hmap]

theorem UniformH.filter (hdr : List String) (rows : List Record) (p : Record → Bool)
    (hu : UniformH hdr rows) : UniformH hdr (rows.filter p) :=
  ⟨hu.1, fun r hr => hu.2 r (List.mem_of_mem_filter hr)⟩

theorem dictSet_keys_of_mem (r : Record) (k v : String) (h : k ∈ keysOf r) :
    keysOf (dictSet r k v) = keysOf r := by
  induction r with
  | nil => simp [keysOf] at h
  | cons kv rest ih =>
      obtain ⟨k', v'⟩ := kv
      by_cases hk : k' = k
      · subst hk; simp [dictSet, keysOf]
      · rw [keysOf_cons] at h
        have hmem : k ∈ keysOf rest := by
          cases h with
          | head => exact absurd rfl hk
          | tail _ h => exact h
        simp [dictSet, hk, keysOf_cons, ih hmem]

theorem dictSet_dget_ne (r : Record) (k v k' : String) (h : k' ≠ k) :
    dget (dictSet r k v) k' = dget r k' := by
  induction r with
  | nil =>
      show dget [(k, v)] k' = dget [] k'
      rw [dget_cons_ne k' k v [] h]
  | cons kv rest ih =>
      obtain ⟨k1, v1⟩ := kv
      by_cases hk1 : k1 = k
      · subst hk1
        rw [show dictSet ((k1, v1) :: rest) k1 v = (k1, v) :: rest from by simp [dictSet]]
        rw [dget_cons_ne k' k1 v rest h, dget_cons_ne k' k1 v1 rest h]
      · rw [show dictSet ((k1, v1) :: rest) k v = (k1, v1) :: dictSet rest k v from by
            simp [dictSet, hk1]]
        by_cases hk' : k' = k1
        · subst hk'; rw [dget_cons_self, dget_cons_self]
        · rw [dget_cons_ne k' k1 v1 _ hk', dget_cons_ne k' k1 v1 rest hk', ih]

theorem dictSet_dget_self (r : Record) (k v : String) :
    dget (dictSet r k v) k = some v := by
  induction r with
  | nil => exact dget_cons_self k v []
  | cons kv rest ih =>
      obtain ⟨k1, v1⟩ := kv
      by_cases hk1 : k1 = k
      · subst hk1
        rw [show dictSet ((k1, v1) :: rest) k1 v = (k1, v) :: rest from by simp [dictSet]]
        exact dget_cons_self k1 v rest
      · rw [show dictSet ((k1, v1) :: rest) k v = (k1, v1) :: dictSet rest k v from by
            simp [dictSet, hk1]]
        rw [dget_cons_ne k k1 v1 _ (fun he => hk1 he.symm), ih]

theorem dictMerge_dget_not_mem (datos : Record) (r : Record) (k : String)
    (h : k ∉ keysOf datos) : dget (dictMerge r datos) k = dget r k := by
  induction datos generalizing r with
  | nil => rfl
  | cons kv rest ih =>
      obtain ⟨k1, v1⟩ := kv
      rw [keysOf_cons] at h
      have h1 : k ≠ k1 := fun he => h (he ▸ List.mem_cons_self k1 (keysOf rest))
      have h2 : k ∉ keysOf rest := fun hm => h (List.mem_cons_of_mem k1 hm)
      show dget (dictMerge (dictSet r k1 v1) rest) k = dget r k
      rw [ih (dictSet r k1 v1) h2, dictSet_dget_ne _ _ _ _ h1]

theorem dictMerge_keys (datos : Record) (r : Record)
    (h : ∀ kv ∈ datos, kv.1 ∈ keysOf r) : keysOf (dictMerge r datos) = keysOf r := by
  induction datos generalizing r with
  | nil => rfl
  | cons kv rest ih =>
      obtain ⟨k1, v1⟩ := kv
      have hk1 : k1 ∈ keysOf r := h (k1, v1) (List.mem_cons_self _ _)
      have hkeys : keysOf (dictSet r k1 v1) = keysOf r := dictSet_keys_of_mem r k1 v1 hk1
      show keysOf (dictMerge (dictSet r k1 v1) rest) = keysOf r
      rw [ih (dictSet r k1 v1) (fun kv hkv => hkeys ▸ h kv (List.mem_cons_of_mem _ hkv)),
        hkeys]

theorem dictMerge_dget_mem (datos : Record) (r : Record) (kv : String × String)
    (hnd : (keysOf datos).Nodup) (hkv : kv ∈ datos) :
    dget (dictMerge r datos) kv.1 = some kv.2 := by
  induction datos generalizing r with
  | nil => simp at hkv
  | cons kv0 rest ih =>
      obtain ⟨k1, v1⟩ := kv0
      rw [keysOf_cons] at hnd
      cases hkv with
      | head =>
          show dget (dictMerge (dictSet r k1 v1) rest) k1 = some v1
          rw [dictMerge_dget_not_mem rest _ k1 (List.nodup_cons.mp hnd).1,
            dictSet_dget_self]
      | tail _ hkv =>
          exact ih (dictSet r k1 v1) (List.nodup_cons.mp hnd).2 hkv

theorem deleteCore_present (rows : List Record) (i : Int) :
    deleteCore (.present rows) i =
      writeCsv (.present rows)
        (rows.filter (fun r => dget r "id" != some (toString i))) := rfl

theorem selectCore_present_none (rows : List Record) :
    selectCore (.present rows) none = .ok rows := rfl

theorem updateCore_present (rows : List Record) (i : Int) (datos : Record) :
    updateCore (.present rows) i datos =
      writeCsv (.present rows) (updateOneMatch rows (toString i) datos) := rfl

theorem deleteOp_present_of_kept_ne_nil (hdr : List String) (rows : List Record) (i : Int)
    (hu : UniformH hdr rows)
    (hne : rows.filter (fun r => dget r "id" != some (toString i)) ≠ []) :
    deleteOp (.present rows) i =
      (true, .present (rows.filter (fun r => dget r "id" != some (toString i)))) := by
  unfold deleteOp
  rw [deleteCore_present,
    writeCsv_id _ hdr _ (UniformH.filter hdr rows _ hu) hne]

theorem deleteOp_present_of_kept_nil (rows : List Record) (i : Int)
    (hnil : rows.filter (fun r => dget r "id" != some (toString i)) = []) :
    deleteOp (.present rows) i = (true, .present rows) := by
  unfold deleteOp
  rw [deleteCore_present, hnil]
  rfl

theorem updateOneMatch_no_match (rows : List Record) (t : String) (datos : Record)
    (h : ∀ r ∈ rows, dget r "id" ≠ some t) : updateOneMatch rows t datos = rows := by
  induction rows with
  | nil => rfl
  | cons r rest ih =>
      rw [updateOneMatch, if_neg (h r (List.mem_cons_self _ _)),
        ih (fun r' hr' => h r' (List.mem_cons_of_mem _ hr'))]

theorem updateOneMatch_split (pre post : List Record) (r : Record) (t : String)
    (datos : Record) (hpre : ∀ r' ∈ pre, dget r' "id" ≠ some t)
    (hr : dget r "id" = some t) :
    updateOneMatch (pre ++ r :: post) t datos = pre ++ dictMerge r datos :: post := by
  induction pre with
  | nil => simp [updateOneMatch, hr]
  | cons p ps ih =>
      simp only [List.cons_append, updateOneMatch, List.append_eq]
      rw [if_neg (hpre p (List.mem_cons_self _ _)),
        ih (fun r' h' => hpre r' (List.mem_cons_of_mem _ h'))]

theorem updateOneMatch_uniform (hdr : List String) (rows : List Record) (t : String)
    (datos : Record) (hu : UniformH hdr rows) (hkeys : ∀ kv ∈ datos, kv.1 ∈ hdr) :
    UniformH hdr (updateOneMatch rows t datos) := by
  refine ⟨hu.1, ?_⟩
  induction rows with
  | nil => intro r hr; simp [updateOneMatch] at hr
  | cons r rest ih =>
      intro r' hr'
      rw [updateOneMatch] at hr'
      by_cases hm : dget r "id" = some t
      · rw [if_pos hm] at hr'
        cases hr' with
        | head =>
            have hkr : keysOf r = hdr := hu.2 r (List.mem_cons_self _ _)
            rw [dictMerge_keys datos r (fun kv hkv => hkr ▸ hkeys kv hkv), hkr]
        | tail _ h => exact hu.2 r' (List.mem_cons_of_mem _ h)
      · rw [if_neg hm] at hr'
        cases hr' with
        | head => exact hu.2 r (List.mem_cons_self _ _)
        | tail _ h =>
            exact ih ⟨hu.1, fun r'' hr'' => hu.2 r'' (List.mem_cons_of_mem _ hr'')⟩ r' h

theorem mapOpt_eq_none_of_mem {α β : Type} (f : α → Option β) (l : List α) (x : α)
    (hx : x ∈ l) (hfx : f x = none) : mapOpt f l = none := by
  induction l with
  | nil => simp at hx
  | cons y ys ih =>
      cases hx with
      | head => cases hmo : mapOpt f ys <;> simp [mapOpt, hfx, hmo]
      | tail _ h => cases hfy : f y <;> simp [mapOpt, hfy, ih h]

theorem selectOp_present_none (rows : List Record) : selectOp (.present rows) none = rows :=
  rfl

theorem selectOp_present_filters (rows : List Record) (f : Record) (hf : f ≠ []) :
    selectOp (.present rows) (some f) = rows.filter (matchesFilters f) := by
  obtain ⟨kv, f', rfl⟩ : ∃ kv f', f = kv :: f' := by
    cases f with
    | nil => exact absurd rfl hf
    | cons kv f' => exact ⟨kv, f', rfl⟩
  rfl

theorem updateOneMatch_map_id (rows : List Record) (t : String) (datos : Record)
    (hid : "id" ∉ keysOf datos) :
    (updateOneMatch rows t datos).map (fun r => dget r "id")
      = rows.map (fun r => dget r "id") := by
  induction rows with
  | nil => rfl
  | cons r rest ih =>
      rw [updateOneMatch]
      by_cases hm : dget r "id" = some t
      · rw [if_pos hm]
        simp [dictMerge_dget_not_mem datos r "id" hid]
      · rw [if_neg hm]
        simp [ih]

theorem updateOneMatch_ne_nil (r : Record) (rest : List Record) (t : String)
    (datos : Record) : updateOneMatch (r :: rest) t datos ≠ [] := by
  rw [updateOneMatch]
  by_cases hm : dget r "id" = some t
  · rw [if_pos hm]; exact List.cons_ne_nil _ _
  · rw [if_neg hm]; exact List.cons_ne_nil _ _

/-- C1 (counterexample): deleting the only record of a table.  `delete`
returns `True`, but because `_write_csv` does nothing when handed an empty
record list, the table file keeps its old contents, and a subsequent
`select` with no filters still returns the record whose id equals `str(1)`
— not the empty list the claim requires. -/
theorem claim1_counterexample :
    (deleteOp (.present [[("id", "1"), ("name", "Ana")]]) 1).1 = true ∧
    selectOp (deleteOp (.present [[("id", "1"), ("name", "Ana")]]) 1).2 none
      = [[("id", "1"), ("name", "Ana")]] := by
  decide

/-- C1 (amended): in LocalFile mode, after `delete(table, id)` returns true,
`select(table)` returns exactly the previously stored records whose id
differs from `str(id)`, in their original order — PROVIDED at least one
record survives the deletion (or the table was already empty).  When the
delete would empty a non-empty table, it still returns true but the file is
left unchanged, so `select` returns the prior records. -/
theorem claim1_amended (hdr : List String) (rows : List Record) (i : Int)
    (hu : UniformH hdr rows) :
    (deleteOp (.present rows) i).1 = true ∧
    (rows.filter (fun r => dget r "id" != some (toString i)) ≠ [] →
      selectOp (deleteOp (.present rows) i).2 none
        = rows.filter (fun r => dget r "id" != some (toString i))) ∧
    (rows ≠ [] → rows.filter (fun r => dget r "id" != some (toString i)) = [] →
      selectOp (deleteOp (.present rows) i).2 none = rows) := by
  by_cases hk : rows.filter (fun r => dget r "id" != some (toString i)) = []
  · rw [deleteOp_present_of_kept_nil rows i hk]
    exact ⟨rfl, fun hne => absurd hk hne, fun _ _ => rfl⟩
  · rw [deleteOp_present_of_kept_ne_nil hdr rows i hu hk]
    exact ⟨rfl, fun _ => rfl, fun _ hnil => absurd hnil hk⟩

/-- C1 witness: a concrete two-record table where deleting id 1 keeps the
record with id 2. -/
theorem claim1_witness :
    UniformH ["id", "name"]
      [[("id", "1"), ("name", "Ana")], [("id", "2"), ("name", "Bob")]] ∧
    (deleteOp
      (.present [[("id", "1"), ("name", "Ana")], [("id", "2"), ("name", "Bob")]]) 1).1
      = true ∧
    selectOp (deleteOp
      (.present [[("id", "1"), ("name", "Ana")], [("id", "2"), ("name", "Bob")]]) 1).2
      none = [[("id", "2"), ("name", "Bob")]] := by
  refine ⟨by decide, (claim1_amended ["id", "name"] _ 1 (by decide)).1, ?_⟩
  exact ((claim1_amended ["id", "name"]
    [[("id", "1"), ("name", "Ana")], [("id", "2"), ("name", "Bob")]] 1
    (by decide)).2.1 (by decide)).trans (by decide)

/-- C2 (counterexample): `update` merges the payload with `dict.update`, so a
payload that itself contains an `id` field overwrites the stored record's id:
updating id 1 with `{id: "99"}` changes the record's id from "1" to "99". -/
theorem claim2_counterexample :
    updateOp (.present [[("id", "1"), ("name", "Ana")]]) 1 [("id", "99")]
      = (true, .present [[("id", "99"), ("name", "Ana")]]) ∧
    dget [("id", "99"), ("name", "Ana")] "id" ≠ dget [("id", "1"), ("name", "Ana")] "id" := by
  decide

/-- C2 (amended): in LocalFile mode, an `update` whose payload does not
contain an `id` field and whose fields are existing fields of the table
never changes any stored record's `id` value (a payload with an `id` field
overwrites the matched record's id; a payload with a brand-new field can
make the rewrite fail). -/
theorem claim2_amended (hdr : List String) (rows : List Record) (i : Int)
    (datos : Record) (hu : UniformH hdr rows) (hid : "id" ∉ keysOf datos)
    (hkeys : ∀ kv ∈ datos, kv.1 ∈ hdr) :
    updateOp (.present rows) i datos
      = (true, .present (updateOneMatch rows (toString i) datos)) ∧
    (updateOneMatch rows (toString i) datos).map (fun r => dget r "id")
      = rows.map (fun r => dget r "id") := by
  refine ⟨?_, updateOneMatch_map_id rows (toString i) datos hid⟩
  unfold updateOp
  cases rows with
  | nil => rfl
  | cons r rest =>
      rw [updateCore_present,
        writeCsv_id _ hdr _ (updateOneMatch_uniform hdr (r :: rest) (toString i) datos hu hkeys)
          (updateOneMatch_ne_nil r rest (toString i) datos)]

/-- C2 witness: updating a concrete two-record table with a payload touching
only `name` leaves both ids as they were. -/
theorem claim2_witness :
    UniformH ["id", "name"]
      [[("id", "1"), ("name", "Ana")], [("id", "2"), ("name", "Bob")]] ∧
    ("id" ∉ keysOf [("name", "Maria")]) ∧
    (updateOneMatch [[("id", "1"), ("name", "Ana")], [("id", "2"), ("name", "Bob")]]
        (toString (1 : Int)) [("name", "Maria")]).map (fun r => dget r "id")
      = [[("id", "1"), ("name", "Ana")], [("id", "2"), ("name", "Bob")]].map
          (fun r => dget r "id") := by
  refine ⟨by decide, by decide, ?_⟩
  exact (claim2_amended ["id", "name"]
    [[("id", "1"), ("name", "Ana")], [("id", "2"), ("name", "Bob")]] 1 [("name", "Maria")]
    (by decide) (by decide) (by decide)).2

/-- C3: inserting `{name: "Ana"}` into an empty LocalFile table assigns
`id = "1"`; inserting `{name: "Bob"}` next assigns `id = "2"` (max existing
id as integer, default 0, plus one, stored as a string); `select` with no
filters then returns both records in insertion order. -/
theorem claim3_roundtrip :
    insertOp .absent [("name", "Ana")]
      = (true, .present [[("name", "Ana"), ("id", "1")]]) ∧
    insertOp (.present [[("name", "Ana"), ("id", "1")]]) [("name", "Bob")]
      = (true, .present [[("name", "Ana"), ("id", "1")], [("name", "Bob"), ("id", "2")]]) ∧
    selectOp (.present [[("name", "Ana"), ("id", "1")], [("name", "Bob"), ("id", "2")]]) none
      = [[("name", "Ana"), ("id", "1")], [("name", "Bob"), ("id", "2")]] := by
  decide

/-- C4 (counterexample): updating id 1 with a field `b` the table does not
have.  The rewrite's header is extended, `DictWriter` fills the missing `b`
of the other record with `""`, so after the update the record with id 2 has
changed from `{id:"2", a:"y"}` to `{id:"2", a:"y", b:""}` — other records
are NOT left unchanged. -/
theorem claim4_counterexample :
    updateOp (.present [[("id", "1"), ("a", "x")], [("id", "2"), ("a", "y")]]) 1
        [("b", "z")]
      = (true, .present
          [[("id", "1"), ("a", "x"), ("b", "z")], [("id", "2"), ("a", "y"), ("b", "")]]) ∧
    ([("id", "2"), ("a", "y"), ("b", "")] : Record) ≠ [("id", "2"), ("a", "y")] := by
  decide

/-- C4 (amended): in LocalFile mode, provided the payload's fields are
existing fields of the table's records, `update(table, id, record)` merges
the payload into the first record whose id equals `str(id)` (payload fields
win, unlisted fields are unchanged), leaves every other record unchanged
(even duplicates of the id later in the table), and when no record matches
it returns true and leaves the table unchanged. -/
theorem claim4_amended :
    (∀ (hdr : List String) (pre post : List Record) (r datos : Record) (i : Int),
      UniformH hdr (pre ++ r :: post) → (∀ kv ∈ datos, kv.1 ∈ hdr) →
      (keysOf datos).Nodup →
      (∀ r' ∈ pre, dget r' "id" ≠ some (toString i)) →
      dget r "id" = some (toString i) →
      updateOp (.present (pre ++ r :: post)) i datos
        = (true, .present (pre ++ dictMerge r datos :: post)) ∧
      (∀ kv ∈ datos, dget (dictMerge r datos) kv.1 = some kv.2) ∧
      (∀ k, k ∉ keysOf datos → dget (dictMerge r datos) k = dget r k)) ∧
    (∀ (hdr : List String) (rows : List Record) (datos : Record) (i : Int),
      UniformH hdr rows → (∀ kv ∈ datos, kv.1 ∈ hdr) →
      (∀ r' ∈ rows, dget r' "id" ≠ some (toString i)) →
      updateOp (.present rows) i datos = (true, .present rows)) := by
  constructor
  · intro hdr pre post r datos i hu hkeys hnd hpre hr
    refine ⟨?_, fun kv hkv => dictMerge_dget_mem datos r kv hnd hkv,
      fun k hk => dictMerge_dget_not_mem datos r k hk⟩
    unfold updateOp
    rw [updateCore_present,
      updateOneMatch_split pre post r (toString i) datos hpre hr]
    rw [show pre ++ dictMerge r datos :: post
          = updateOneMatch (pre ++ r :: post) (toString i) datos from
        (updateOneMatch_split pre post r (toString i) datos hpre hr).symm] at *
    rw [writeCsv_id _ hdr _
      (updateOneMatch_uniform hdr (pre ++ r :: post) (toString i) datos hu hkeys)
      (by
        cases pre with
        | nil =>
            rw [List.nil_append]
            exact updateOneMatch_ne_nil r post (toString i) datos
        | cons p ps =>
            rw [List.cons_append]
            exact updateOneMatch_ne_nil p (ps ++ r :: post) (toString i) datos)]
  · intro hdr rows datos i hu hkeys hno
    unfold updateOp
    cases rows with
    | nil => rfl
    | cons r rest =>
        rw [updateCore_present, updateOneMatch_no_match _ _ _ hno,
          writeCsv_id _ hdr _ hu (List.cons_ne_nil r rest)]

/-- C4 witness: merging `{a: "z"}` into the record with id 1 of a concrete
table, and updating a nonexistent id 7 of the same table. -/
theorem claim4_witness :
    (updateOp (.present [[("id", "1"), ("a", "x")], [("id", "2"), ("a", "y")]]) 1
        [("a", "z")]
      = (true, .present
          [dictMerge [("id", "1"), ("a", "x")] [("a", "z")], [("id", "2"), ("a", "y")]])) ∧
    updateOp (.present [[("id", "1"), ("a", "x")], [("id", "2"), ("a", "y")]]) 7
        [("a", "z")]
      = (true, .present [[("id", "1"), ("a", "x")], [("id", "2"), ("a", "y")]]) := by
  constructor
  · exact (claim4_amended.1 ["id", "a"] [] [[("id", "2"), ("a", "y")]]
      [("id", "1"), ("a", "x")] [("a", "z")] 1 (by decide) (by decide) (by decide)
      (by decide) (by decide)).1
  · exact claim4_amended.2 ["id", "a"]
      [[("id", "1"), ("a", "x")], [("id", "2"), ("a", "y")]] [("a", "z")] 7
      (by decide) (by decide) (by decide)

theorem matchesFilters_iff (f d : Record) :
    matchesFilters f d = true ↔ ∀ kv ∈ f, dget d kv.1 = some kv.2 := by
  simp [matchesFilters, List.all_eq_true]

/-- C5: in LocalFile mode, `select(table, filters)` with a non-empty filter
mapping returns exactly the records for which every listed field equals the
given value (an order-preserving sublist of the stored records), and
`select(table)` with no filters returns all records. -/
theorem claim5_select_filters (rows : List Record) (f : Record) (hf : f ≠ []) :
    selectOp (.present rows) (some f) = rows.filter (matchesFilters f) ∧
    List.Sublist (selectOp (.present rows) (some f)) rows ∧
    (∀ r, r ∈ selectOp (.present rows) (some f) ↔
      (r ∈ rows ∧ ∀ kv ∈ f, dget r kv.1 = some kv.2)) ∧
    selectOp (.present rows) none = rows := by
  have he := selectOp_present_filters rows f hf
  refine ⟨he, ?_, ?_, rfl⟩
  · rw [he]
    exact List.filter_sublist rows
  · intro r
    rw [he, List.mem_filter, matchesFilters_iff]

/-- C5 witness: the spec's example — filtering on `city = "X"` returns
exactly the first of the two records. -/
theorem claim5_witness :
    (([("city", "X")] : Record) ≠ []) ∧
    selectOp (.present [[("id", "1"), ("city", "X")], [("id", "2"), ("city", "Y")]])
      (some [("city", "X")]) = [[("id", "1"), ("city", "X")]] := by
  refine ⟨by decide, ?_⟩
  exact ((claim5_select_filters
    [[("id", "1"), ("city", "X")], [("id", "2"), ("city", "Y")]]
    [("city", "X")] (by decide)).1).trans (by decide)

/-- C6: in LocalFile mode, `delete` is idempotent on every representable
table state: both calls return true, and the second call leaves the file
exactly where the first left it (also in the quirky branch where the first
delete empties a non-empty table and persists nothing). -/
theorem claim6_delete_idempotent (hdr : List String) (rows : List Record) (i : Int)
    (hu : UniformH hdr rows) :
    (deleteOp (.present rows) i).1 = true ∧
    (deleteOp ((deleteOp (.present rows) i).2) i).1 = true ∧
    (deleteOp ((deleteOp (.present rows) i).2) i).2 = (deleteOp (.present rows) i).2 := by
  by_cases hk : rows.filter (fun r => dget r "id" != some (toString i)) = []
  · rw [deleteOp_present_of_kept_nil rows i hk]
    dsimp only
    rw [deleteOp_present_of_kept_nil rows i hk]
    exact ⟨rfl, rfl, rfl⟩
  · have h1 := deleteOp_present_of_kept_ne_nil hdr rows i hu hk
    have hself : (rows.filter (fun r => dget r "id" != some (toString i))).filter
        (fun r => dget r "id" != some (toString i))
        = rows.filter (fun r => dget r "id" != some (toString i)) :=
      List.filter_eq_self.mpr (fun a ha => (List.mem_filter.mp ha).2)
    have h2 := deleteOp_present_of_kept_ne_nil hdr
      (rows.filter (fun r => dget r "id" != some (toString i))) i
      (UniformH.filter hdr rows _ hu) (by rw [hself]; exact hk)
    rw [h1]
    dsimp only
    rw [h2, hself]
    exact ⟨rfl, rfl, rfl⟩

/-- C6 witness: deleting id 1 twice from a concrete two-record table. -/
theorem claim6_witness :
    UniformH ["id", "name"]
      [[("id", "1"), ("name", "Ana")], [("id", "2"), ("name", "Bob")]] ∧
    (deleteOp (deleteOp
        (.present [[("id", "1"), ("name", "Ana")], [("id", "2"), ("name", "Bob")]]) 1).2
        1).2
      = (deleteOp
        (.present [[("id", "1"), ("name", "Ana")], [("id", "2"), ("name", "Bob")]]) 1).2 :=
  ⟨by decide,
    (claim6_delete_idempotent ["id", "name"]
      [[("id", "1"), ("name", "Ana")], [("id", "2"), ("name", "Bob")]] 1 (by decide)).2.2⟩

/-- C7: no exception escapes the four public operations in LocalFile mode:
whenever the body of the `try` raises (the core computation is an error —
unreadable file, unparsable id, failing rewrite), `select` returns the empty
list and `insert`/`update`/`delete` return false; the operations themselves
are total functions. -/
theorem claim7_exception_containment :
    (∀ (fs : FileState) (filtros : Option Record),
      selectCore fs filtros = .error () → selectOp fs filtros = []) ∧
    (∀ (fs : FileState) (datos : Record) (fsErr : FileState),
      insertCore fs datos = .error fsErr → (insertOp fs datos).1 = false) ∧
    (∀ (fs : FileState) (i : Int) (datos : Record) (fsErr : FileState),
      updateCore fs i datos = .error fsErr → (updateOp fs i datos).1 = false) ∧
    (∀ (fs : FileState) (i : Int) (fsErr : FileState),
      deleteCore fs i = .error fsErr → (deleteOp fs i).1 = false) := by
  refine ⟨fun fs filtros h => ?_, fun fs datos fsErr h => ?_,
    fun fs i datos fsErr h => ?_, fun fs i fsErr h => ?_⟩
  · unfold selectOp
    rw [h]
  · unfold insertOp
    rw [h]
  · unfold updateOp
    rw [h]
  · unfold deleteOp
    rw [h]

/-- C7 witness: an unreadable table file makes every core raise, and every
public operation return its neutral result. -/
theorem claim7_witness :
    (selectCore .corrupt none = .error () ∧ selectOp .corrupt none = []) ∧
    (insertCore .corrupt [("name", "Ana")] = .error .corrupt ∧
      (insertOp .corrupt [("name", "Ana")]).1 = false) ∧
    (updateCore .corrupt 1 [("name", "Ana")] = .error .corrupt ∧
      (updateOp .corrupt 1 [("name", "Ana")]).1 = false) ∧
    (deleteCore .corrupt 1 = .error .corrupt ∧ (deleteOp .corrupt 1).1 = false) :=
  ⟨⟨rfl, claim7_exception_containment.1 .corrupt none rfl⟩,
    ⟨rfl, claim7_exception_containment.2.1 .corrupt [("name", "Ana")] .corrupt rfl⟩,
    ⟨rfl, claim7_exception_containment.2.2.1 .corrupt 1 [("name", "Ana")] .corrupt rfl⟩,
    ⟨rfl, claim7_exception_containment.2.2.2 .corrupt 1 .corrupt rfl⟩⟩

/-- C8 (counterexample): construction is NOT exception-free for every
filesystem state: `__init__` runs `os.makedirs` outside any `try`, so when
the backup directory is missing and cannot be created, the constructor
raises even with valid credentials and a reachable backend. -/
theorem claim8_counterexample :
    initDb (fun _ => FileState.absent) false false true true = .error () := rfl

/-- C8 (amended): provided the backup directory exists or can be created,
construction always succeeds — mode selection itself never throws; with
missing credentials the store is in LocalFile (CSV) mode and
`get_connection_status()` reports "CSV Local", and with credentials and a
successful probe it is connected and reports "Supabase". -/
theorem claim8_amended (files : String → FileState)
    (dirExists mkdirOk credsOk probeOk : Bool)
    (hdir : dirExists = true ∨ mkdirOk = true) :
    initDb files dirExists mkdirOk credsOk probeOk
      = .ok (mkDatabase files credsOk probeOk) ∧
    (credsOk = false → (mkDatabase files credsOk probeOk).csvMode = true ∧
      (mkDatabase files credsOk probeOk).getConnectionStatus = "CSV Local") ∧
    (credsOk = true → probeOk = true →
      (mkDatabase files credsOk probeOk).connected = true ∧
      (mkDatabase files credsOk probeOk).getConnectionStatus = "Supabase") := by
  refine ⟨?_, ?_, ?_⟩
  · unfold initDb
    rcases hdir with h | h <;> rw [h] <;> simp
  · intro hc
    subst hc
    exact ⟨rfl, rfl⟩
  · intro hc hp
    subst hc
    subst hp
    exact ⟨rfl, rfl⟩

/-- C8 witness: with an existing backup directory and no credentials,
construction succeeds in CSV mode. -/
theorem claim8_witness :
    initDb (fun _ => FileState.absent) true true false false
      = .ok (mkDatabase (fun _ => FileState.absent) false false) ∧
    (mkDatabase (fun _ => FileState.absent) false false).getConnectionStatus
      = "CSV Local" := by
  have h := claim8_amended (fun _ => FileState.absent) true true false false (Or.inl rfl)
  exact ⟨h.1, (h.2.1 rfl).2⟩

theorem reachable_flags (db : Database) (h : Reachable db) :
    (db.connected = true ∧ db.csvMode = false) ∨
    (db.connected = false ∧ db.csvMode = true) := by
  induction h with
  | init files dE mOk c p db hinit =>
      unfold initDb at hinit
      split at hinit
      · cases hinit
        cases hc : c && p <;>
          simp [mkDatabase, connectFlags, hc]
      · cases hinit
  | insertStep db rOk t d h ih =>
      have hflags : (db.insertDb rOk t d).2.connected = db.connected ∧
          (db.insertDb rOk t d).2.csvMode = db.csvMode := by
        by_cases hm : db.csvMode <;>
          simp [Database.insertDb, Database.setTable, hm]
      rw [hflags.1, hflags.2]
      exact ih
  | updateStep db rOk t i d h ih =>
      have hflags : (db.updateDb rOk t i d).2.connected = db.connected ∧
          (db.updateDb rOk t i d).2.csvMode = db.csvMode := by
        by_cases hm : db.csvMode <;>
          simp [Database.updateDb, Database.setTable, hm]
      rw [hflags.1, hflags.2]
      exact ih
  | deleteStep db rOk t i h ih =>
      have hflags : (db.deleteDb rOk t i).2.connected = db.connected ∧
          (db.deleteDb rOk t i).2.csvMode = db.csvMode := by
        by_cases hm : db.csvMode <;>
          simp [Database.deleteDb, Database.setTable, hm]
      rw [hflags.1, hflags.2]
      exact ih

/-- C9: on every database object reachable from a completed construction
through the store's operations, exactly one of `connected` and `csv_mode` is
true, and `get_connection_status()` returns "CSV Local" or "Supabase" — the
"Desconectado" branch is unreachable. -/
theorem claim9_mode_invariant (db : Database) (h : Reachable db) :
    ((db.connected = true ∧ db.csvMode = false) ∨
      (db.connected = false ∧ db.csvMode = true)) ∧
    (db.getConnectionStatus = "CSV Local" ∨ db.getConnectionStatus = "Supabase") := by
  have hf := reachable_flags db h
  refine ⟨hf, ?_⟩
  rcases hf with ⟨hc, hm⟩ | ⟨hc, hm⟩
  · right
    unfold Database.getConnectionStatus
    rw [hm, hc]
    rfl
  · left
    unfold Database.getConnectionStatus
    rw [hm]
    rfl

/-- C9 witness: the store constructed with no credentials reports
"CSV Local" (in particular never "Desconectado"). -/
theorem claim9_witness :
    (mkDatabase (fun _ => FileState.absent) false false).getConnectionStatus
        = "CSV Local" ∨
    (mkDatabase (fun _ => FileState.absent) false false).getConnectionStatus
        = "Supabase" :=
  (claim9_mode_invariant (mkDatabase (fun _ => FileState.absent) false false)
    (Reachable.init (fun _ => FileState.absent) true true false false _ rfl)).2

/-- C10: in LocalFile mode, when some stored record's `id` does not parse as
a Python integer, `insert` of an id-less record fails — `int()` raises
during the max-id computation, before any write — returning false with the
table file unchanged. -/
theorem claim10_insert_bad_id (rows : List Record) (datos : Record)
    (hid : dget datos "id" = none)
    (hbad : ∃ r ∈ rows, idVal r = none) :
    insertOp (.present rows) datos = (false, .present rows) := by
  obtain ⟨r, hr, hbadr⟩ := hbad
  have hmo : mapOpt idVal rows = none := mapOpt_eq_none_of_mem idVal rows r hr hbadr
  have hcore : insertCore (.present rows) datos = .error (.present rows) := by
    have hred : insertCore (.present rows) datos =
        (match dget datos "id" with
         | some _ => writeCsv (.present rows) (rows ++ [datos])
         | none =>
             match mapOpt idVal rows with
             | none => .error (.present rows)
             | some ids =>
                 writeCsv (.present rows)
                   (rows ++ [dictSet datos "id" (toString (maxInt ids + 1))])) := rfl
    rw [hred, hid, hmo]
  unfold insertOp
  rw [hcore]

/-- C10 witness: a table whose single record has id "abc". -/
theorem claim10_witness :
    dget [("name", "Ana")] "id" = none ∧
    (∃ r ∈ [[("id", "abc"), ("name", "Eve")]], idVal r = none) ∧
    insertOp (.present [[("id", "abc"), ("name", "Eve")]]) [("name", "Ana")]
      = (false, .present [[("id", "abc"), ("name", "Eve")]]) :=
  ⟨by decide, by decide,
    claim10_insert_bad_id [[("id", "abc"), ("name", "Eve")]] [("name", "Ana")]
      (by decide) (by decide)⟩

end Colmago
